import Mathlib

/-!
Verification development for the gh-csd repository: a local execution
daemon reachable over a Unix socket, a JSON protocol codec, an SSH retry
loop, and a selection-state store. Each Go function relevant to the
properties below is embedded as a Lean definition; effects (process
launches, socket binds, file contents, signals) are made explicit
parameters or results.
-/

namespace GhCsd

/-! ## Protocol data model (internal/protocol/protocol.go) -/

/-- `ExecRequest` from protocol.go: `Type` (json "type"), `Command`
(json "command"), `Workdir` (json "workdir", omitempty). -/
structure ExecRequest where
  type : String
  command : List String
  workdir : String
deriving Repr, DecidableEq

/-- `ExecResponse` from protocol.go: `Stdout`, `Stderr`, `ExitCode`
(json "exit_code"), `Error` (json "error", omitempty). -/
structure ExecResponse where
  stdout : String
  stderr : String
  exitCode : Int
  error : String
deriving Repr, DecidableEq

/-! ## Go `path/filepath.Base` on Unix, used by `isAllowedCommand` -/

/-- Path separator test (Unix build: only '/'). -/
def isPathSep (c : Char) : Bool := c = '/'

/-- Strip trailing path separators, as `filepath.Base` does first. -/
def dropTrailingSeps (xs : List Char) : List Char :=
  (xs.reverse.dropWhile isPathSep).reverse

/-- The suffix after the last separator (the whole list if none). -/
def afterLastSep (xs : List Char) : List Char :=
  (xs.reverse.takeWhile (fun c => ¬ isPathSep c)).reverse

/-- Go `filepath.Base`: "." for the empty path, "/" for all-separator
paths, otherwise the last path element with trailing separators removed. -/
def filepathBase (path : String) : String :=
  if path = "" then "."
  else
    let xs := afterLastSep (dropTrailingSeps path.data)
    if xs = [] then "/" else ⟨xs⟩

/-! ## Daemon exec handling (cmd server file) -/

/-- `allowedCommands`: commands allowed to be executed remotely. -/
def allowedCommands : List String := ["gh"]

/-- `isAllowedCommand`: the basename of the command must equal one of the
allow-list entries. -/
def isAllowedCommand (cmd : String) : Bool :=
  allowedCommands.any (fun allowed => filepathBase cmd == allowed)

/-- `writeErrorResponse`: a response carrying only an error message and a
daemon-chosen exit code. -/
def writeErrorResponse (errMsg : String) (exitCode : Int) : ExecResponse :=
  { stdout := "", stderr := "", exitCode := exitCode, error := errMsg }

/-- The daemon's error message for a blocked command
(`command %q not allowed (allowed: %s)`). -/
def notAllowedMsg (cmd : String) : String :=
  "command \x22" ++ cmd ++ "\x22 not allowed (allowed: "
    ++ String.intercalate ", " allowedCommands ++ ")"

/-- Outcome of `exec.Cmd.Run` for the requested command: `success` is a
nil error (exit status 0), `exitError` is an `*exec.ExitError` carrying
the child's exit status, `launchError` is any other error (the process
never ran, e.g. executable not found). -/
inductive RunResult where
  | success (stdout stderr : String)
  | exitError (stdout stderr : String) (code : Int)
  | launchError (msg : String)
deriving Repr, DecidableEq

/-- `Server.handleExec`. The `RunResult` parameter is the outcome the
operating system would give for launching `req.command`; it is consulted
only on the branch that actually launches the process. The returned
`Bool` is true exactly when that launch branch is reached. -/
def handleExec (req : ExecRequest) (run : RunResult) : ExecResponse × Bool :=
  match req.command with
  | [] => (writeErrorResponse "no command specified" 1, false)
  | c0 :: _ =>
    if ¬ isAllowedCommand c0 then
      (writeErrorResponse (notAllowedMsg c0) 1, false)
    else
      match run with
      | .success out err =>
          ({ stdout := out, stderr := err, exitCode := 0, error := "" }, true)
      | .exitError out err code =>
          ({ stdout := out, stderr := err, exitCode := code, error := "" }, true)
      | .launchError msg =>
          (writeErrorResponse ("command failed: " ++ msg) 1, true)

/-- Input to `Server.ServeHTTP`: the body read can fail, the JSON parse
can fail, or a request is obtained. -/
inductive HttpIn where
  | badBody
  | badJson
  | ok (req : ExecRequest)
deriving Repr, DecidableEq

/-- Observable output of `Server.ServeHTTP`: an `ExecResponse` (with the
flag from `handleExec` saying whether the launch branch ran), or one of
the fixed status/stop acknowledgments. -/
inductive HttpOut where
  | exec (resp : ExecResponse) (launchAttempted : Bool)
  | statusRunning
  | stopping
deriving Repr, DecidableEq

/-- `Server.ServeHTTP`: read body, unmarshal, dispatch on `req.Type`. -/
def serveHTTP (inp : HttpIn) (run : RunResult) : HttpOut :=
  match inp with
  | .badBody => .exec (writeErrorResponse "failed to read request" 1) false
  | .badJson => .exec (writeErrorResponse "invalid request format" 1) false
  | .ok req =>
    if req.type = "exec" then
      let r := handleExec req run
      .exec r.1 r.2
    else if req.type = "status" then .statusRunning
    else if req.type = "stop" then .stopping
    else .exec (writeErrorResponse ("unknown request type: " ++ req.type) 1) false

/-! ## JSON codec (internal/protocol/protocol.go, via encoding/json)

The byte stream produced by `json.Encoder` and consumed by `json.Decoder`
is modelled at the level of JSON values: encoding a struct yields a JSON
value, and decoding parses a JSON value back into the struct following
Go's unmarshalling rules (zero values for missing fields, type errors for
mismatched fields, field keys matched case-insensitively, unknown fields
ignored, a top-level `null` accepted as a no-op, and any other non-object
top value rejected). -/

/-- JSON values. -/
inductive Json where
  | null
  | bool (b : Bool)
  | num (n : Int)
  | str (s : String)
  | arr (elems : List Json)
  | obj (fields : List (String × Json))

/-- `json.Marshal` of an `ExecRequest`: "type" and "command" always
present, "workdir" omitted when empty (omitempty). -/
def encodeRequest (r : ExecRequest) : Json :=
  .obj ([("type", .str r.type), ("command", .arr (r.command.map .str))]
    ++ (if r.workdir = "" then [] else [("workdir", .str r.workdir)]))

/-- `json.Marshal` of an `ExecResponse`: "stdout", "stderr", "exit_code"
always present, "error" omitted when empty (omitempty). -/
def encodeResponse (r : ExecResponse) : Json :=
  .obj ([("stdout", .str r.stdout), ("stderr", .str r.stderr),
         ("exit_code", .num r.exitCode)]
    ++ (if r.error = "" then [] else [("error", .str r.error)]))

/-- Unmarshal a JSON array into `[]string`: string elements kept, `null`
elements become the zero value "", anything else is a type error. -/
def decStringList : List Json → Except String (List String)
  | [] => .ok []
  | .str s :: rest => (decStringList rest).map (fun l => s :: l)
  | .null :: rest => (decStringList rest).map (fun l => "" :: l)
  | _ => .error "cannot unmarshal array element into string"

/-- Case folding as used by `encoding/json` field matching, restricted to
comparison against this protocol's ASCII-lowercase field tags: ASCII
upper case folds to lower case, and the only two non-ASCII code points
whose Unicode simple-fold orbit contains an ASCII letter — the Kelvin
sign and the long s — fold to that letter. Against an ASCII tag this
computes exactly Go's `EqualFold` match. -/
def foldToLower (c : Char) : Char :=
  if 65 ≤ c.toNat ∧ c.toNat ≤ 90 then Char.ofNat (c.toNat + 32)
  else if c.toNat = 0x212A then 'k'
  else if c.toNat = 0x17F then 's'
  else c

/-- `encoding/json` field-name matching: an incoming object key matches a
struct field's tag case-insensitively (Go prefers an exact match, but the
tags here are pairwise distinct under folding, so the fold alone decides
the match). -/
def eqFoldTag (key tag : String) : Bool :=
  key.data.map foldToLower == tag.data

/-- Apply one JSON object field to an `ExecRequest` being unmarshalled:
keys matching a known tag (case-insensitively, as Go matches fields) set
that field when the value's type fits (a `null` value leaves a string
field, and clears the slice field, as Go does), other keys are ignored. -/
def applyReqField (acc : ExecRequest) (f : String × Json) :
    Except String ExecRequest :=
  if eqFoldTag f.1 "type" then
    match f.2 with
    | .str s => .ok { acc with type := s }
    | .null => .ok acc
    | _ => .error "cannot unmarshal field type"
  else if eqFoldTag f.1 "command" then
    match f.2 with
    | .arr xs => (decStringList xs).map (fun c => { acc with command := c })
    | .null => .ok { acc with command := [] }
    | _ => .error "cannot unmarshal field command"
  else if eqFoldTag f.1 "workdir" then
    match f.2 with
    | .str s => .ok { acc with workdir := s }
    | .null => .ok acc
    | _ => .error "cannot unmarshal field workdir"
  else .ok acc

/-- Fold `applyReqField` over the object's fields in order. -/
def applyReqFields (acc : ExecRequest) :
    List (String × Json) → Except String ExecRequest
  | [] => .ok acc
  | f :: rest =>
    match applyReqField acc f with
    | .ok acc2 => applyReqFields acc2 rest
    | .error e => .error e

/-- `ReadRequest`'s decode step: unmarshal a JSON value into an
`ExecRequest`, starting from the struct's zero value; a top-level `null`
is a successful no-op leaving the zero value, as in Go. -/
def decodeRequest : Json → Except String ExecRequest
  | .obj fields => applyReqFields ⟨"", [], ""⟩ fields
  | .null => .ok ⟨"", [], ""⟩
  | _ => .error "cannot unmarshal into ExecRequest"

/-- Apply one JSON object field to an `ExecResponse` being unmarshalled,
with the same case-insensitive key matching as `applyReqField`. -/
def applyRespField (acc : ExecResponse) (f : String × Json) :
    Except String ExecResponse :=
  if eqFoldTag f.1 "stdout" then
    match f.2 with
    | .str s => .ok { acc with stdout := s }
    | .null => .ok acc
    | _ => .error "cannot unmarshal field stdout"
  else if eqFoldTag f.1 "stderr" then
    match f.2 with
    | .str s => .ok { acc with stderr := s }
    | .null => .ok acc
    | _ => .error "cannot unmarshal field stderr"
  else if eqFoldTag f.1 "exit_code" then
    match f.2 with
    | .num n => .ok { acc with exitCode := n }
    | .null => .ok acc
    | _ => .error "cannot unmarshal field exit_code"
  else if eqFoldTag f.1 "error" then
    match f.2 with
    | .str s => .ok { acc with error := s }
    | .null => .ok acc
    | _ => .error "cannot unmarshal field error"
  else .ok acc

/-- Fold `applyRespField` over the object's fields in order. -/
def applyRespFields (acc : ExecResponse) :
    List (String × Json) → Except String ExecResponse
  | [] => .ok acc
  | f :: rest =>
    match applyRespField acc f with
    | .ok acc2 => applyRespFields acc2 rest
    | .error e => .error e

/-- `ReadResponse`'s decode step: unmarshal a JSON value into an
`ExecResponse`, starting from the struct's zero value; a top-level `null`
is a successful no-op leaving the zero value, as in Go. -/
def decodeResponse : Json → Except String ExecResponse
  | .obj fields => applyRespFields ⟨"", "", 0, ""⟩ fields
  | .null => .ok ⟨"", "", 0, ""⟩
  | _ => .error "cannot unmarshal into ExecResponse"

/-! ## SSH retry loop (cmd/ssh.go, `sshWithRetry`)

One loop iteration = one session attempt. What the environment does at
each iteration is an `AttemptObs`: whether `cmd.Run()` returned nil,
whether a signal was pending on `sigChan` at the post-exit check, and
whether a signal arrived during the inter-retry wait before the timer
fired. The loop body is driven by a list of observations (one per
attempt); `none` means the trace ran out before the loop returned
(the unlimited-retry case keeps looping). -/

/-- Environment observations for one attempt of the retry loop. -/
structure AttemptObs where
  exitOk : Bool
  sigAtExit : Bool
  sigDuringWait : Bool
deriving Repr, DecidableEq

/-- The four return sites of `sshWithRetry`, by their printed message:
"SSH session ended normally." (nil), "Disconnected." (nil),
"max retries (n) reached, giving up" (error), and
"Reconnection cancelled." (nil). -/
inductive RetryEnd where
  | endedNormally
  | disconnected
  | maxRetriesReached (n : Int)
  | reconnectCancelled
deriving Repr, DecidableEq

/-- What a finished run of the retry loop looked like: which return site,
how many session attempts were started, and the final value of the
`retries` counter. -/
structure RetryOut where
  outcome : RetryEnd
  attempts : Nat
  retries : Nat
deriving Repr, DecidableEq

/-- Loop body of `sshWithRetry`, threading the `retries` counter and an
attempt count; `maxRetries` is the `--max-retries` flag (0 = unlimited). -/
def sshWithRetryAux (maxRetries : Int) (retries attempts : Nat) :
    List AttemptObs → Option RetryOut
  | [] => none
  | o :: rest =>
    let attempts := attempts + 1
    if o.exitOk then some ⟨.endedNormally, attempts, retries⟩
    else if o.sigAtExit then some ⟨.disconnected, attempts, retries⟩
    else
      let r := retries + 1
      if maxRetries > 0 ∧ (r : Int) ≥ maxRetries then
        some ⟨.maxRetriesReached maxRetries, attempts, r⟩
      else if o.sigDuringWait then some ⟨.reconnectCancelled, attempts, r⟩
      else sshWithRetryAux maxRetries r attempts rest

/-- `sshWithRetry`: the loop starts with `retries := 0`. -/
def sshWithRetry (maxRetries : Int) (obs : List AttemptObs) : Option RetryOut :=
  sshWithRetryAux maxRetries 0 0 obs

/-! ## Daemon socket binding (cmd server file, `Server.Listen`) -/

/-- Outcome of one `net.Listen("unix", path)` call: success, an
EADDRINUSE failure (recognised by `isAddressInUse`), or any other error. -/
inductive BindOutcome where
  | ok
  | addrInUse
  | otherErr (msg : String)
deriving Repr, DecidableEq

/-- Result of `Server.Listen` before it blocks in `Serve`: entered the
listening state, returned the "server already running" error, or returned
the "failed to listen on socket" error. -/
inductive ListenResult where
  | listening
  | alreadyRunning
  | bindError
deriving Repr, DecidableEq

/-- `Server.Listen`'s bind sequence. `bind1` is the first
`net.Listen` outcome, `probe` the `isServerRunning` connect probe
(consulted only when `bind1` is address-in-use), `bind2` the single
rebind after removing a stale socket. The returned `Bool` is true exactly
when the stale socket file was removed. -/
def listen (bind1 : BindOutcome) (probe : Bool) (bind2 : BindOutcome) :
    ListenResult × Bool :=
  match bind1 with
  | .ok => (.listening, false)
  | .addrInUse =>
    if probe then (.alreadyRunning, false)
    else
      match bind2 with
      | .ok => (.listening, true)
      | _ => (.bindError, true)
  | .otherErr _ => (.bindError, false)

/-! ## Selection-state store (internal/state, `Get`/`Set`/`Clear`)

The filesystem is modelled as the content of `~/.csd/current`:
`none` when the file does not exist, `some data` otherwise. -/

/-- Go `unicode.IsSpace` over the characters relevant to
`strings.TrimSpace`: ASCII whitespace plus the Unicode White_Space
code points. -/
def isGoSpace (c : Char) : Bool :=
  decide (c.toNat ∈ ([9, 10, 11, 12, 13, 32, 0x85, 0xA0, 0x1680,
      0x2028, 0x2029, 0x202F, 0x205F, 0x3000] : List Nat))
    || decide (0x2000 ≤ c.toNat ∧ c.toNat ≤ 0x200A)

/-- Drop trailing whitespace. -/
def dropTrailingSpace (xs : List Char) : List Char :=
  (xs.reverse.dropWhile isGoSpace).reverse

/-- Go `strings.TrimSpace`: drop leading and trailing whitespace. -/
def trimSpace (s : String) : String :=
  ⟨dropTrailingSpace (s.data.dropWhile isGoSpace)⟩

/-- The error values the state store can return; `noCodespace` is
`ErrNoCodespace`. -/
inductive StateErr where
  | noCodespace
deriving Repr, DecidableEq

/-- `state.Get`: a missing file is `ErrNoCodespace`; otherwise the file's
content is trimmed and an empty result is again `ErrNoCodespace`. -/
def stateGet (fs : Option String) : Except StateErr String :=
  match fs with
  | none => .error .noCodespace
  | some data =>
    let name := trimSpace data
    if name = "" then .error .noCodespace
    else .ok name

/-- `state.Set`: write the name followed by a newline. -/
def stateSet (name : String) (_fs : Option String) : Option String :=
  some (name ++ "\n")

/-- `state.Clear`: remove the file; an IsNotExist failure is treated as
success. Returns the new file state and whether the call succeeded. -/
def stateClear : Option String → Option String × Bool
  | none => (none, true)
  | some _ => (none, true)

/-! ## Helper lemmas -/

/-- Appending anything to a non-empty string keeps it non-empty. -/
lemma append_ne_empty_left (s t : String) (h : s ≠ "") : s ++ t ≠ "" := by
  intro he
  have hl : (s ++ t).length = 0 := by rw [he]; rfl
  rw [String.length_append] at hl
  have hs : s.length = 0 := by omega
  apply h
  have hd : s.data.length = 0 := hs
  have hnil : s.data = [] := List.length_eq_zero.mp hd
  exact String.ext (by simpa using hnil)

/-- The blocked-command message is never empty. -/
lemma notAllowedMsg_ne_empty (cmd : String) : notAllowedMsg cmd ≠ "" := by
  unfold notAllowedMsg
  exact append_ne_empty_left "command \x22" _ (by decide)

/-- The launch-failure message is never empty. -/
lemma commandFailedMsg_ne_empty (msg : String) : "command failed: " ++ msg ≠ "" :=
  append_ne_empty_left _ _ (by decide)

/-- The unknown-request-type message is never empty. -/
lemma unknownTypeMsg_ne_empty (ty : String) : "unknown request type: " ++ ty ≠ "" :=
  append_ne_empty_left _ _ (by decide)

/-- Invariant of `handleExec` alone: an error-carrying response always
has the daemon-chosen exit code 1, and a response produced after the
launch branch ran a process to completion has an empty error. -/
lemma handleExec_inv (req : ExecRequest) (run : RunResult) :
    ((handleExec req run).1.error ≠ "" → (handleExec req run).1.exitCode = 1) ∧
    (∀ out err, run = .success out err → (handleExec req run).2 = true →
      (handleExec req run).1.error = "") ∧
    (∀ out err code, run = .exitError out err code → (handleExec req run).2 = true →
      (handleExec req run).1.error = "") := by
  obtain ⟨ty, cmd, wd⟩ := req
  cases cmd with
  | nil =>
    refine ⟨fun _ => rfl, ?_, ?_⟩ <;>
      · intros
        simp_all [handleExec]
  | cons c0 cs =>
    by_cases hallow : isAllowedCommand c0
    · cases run <;> simp [handleExec, hallow, writeErrorResponse]
    · simp [handleExec, hallow, writeErrorResponse]

/-- C1: a non-empty command whose head is not allowed yields an error
response with non-zero exit code, and the launch branch is not reached. -/
theorem c1_disallowed_never_launched (req : ExecRequest) (run : RunResult)
    (c0 : String) (rest : List String)
    (hcmd : req.command = c0 :: rest)
    (hallow : isAllowedCommand c0 = false) :
    (handleExec req run).1.error ≠ "" ∧ (handleExec req run).1.exitCode ≠ 0 ∧
      (handleExec req run).2 = false := by
  obtain ⟨ty, cmd, wd⟩ := req
  simp only at hcmd
  subst hcmd
  simp [handleExec, hallow, writeErrorResponse, notAllowedMsg_ne_empty]

/-- Concrete instance of the C1 theorem: the command "rm -rf /" is
refused without a launch. -/
theorem c1_disallowed_never_launched_witness :
    (handleExec ⟨"exec", ["rm", "-rf", "/"], ""⟩ (.success "" "")).1.error ≠ "" ∧
    (handleExec ⟨"exec", ["rm", "-rf", "/"], ""⟩ (.success "" "")).1.exitCode ≠ 0 ∧
    (handleExec ⟨"exec", ["rm", "-rf", "/"], ""⟩ (.success "" "")).2 = false :=
  c1_disallowed_never_launched ⟨"exec", ["rm", "-rf", "/"], ""⟩ (.success "" "")
    "rm" ["-rf", "/"] rfl (by decide)

/-- C9: an exec request with an empty command list yields exactly the
error "no command specified" with exit code 1, and no launch. -/
theorem c9_empty_command_rejected (wd : String) (run : RunResult) :
    serveHTTP (.ok ⟨"exec", [], wd⟩) run =
      .exec { stdout := "", stderr := "", exitCode := 1,
              error := "no command specified" } false := rfl

/-- C4: for an allowed command, a child that runs and exits is reported
verbatim (its exit status in `exit_code`, empty `error`), while a launch
failure is reported through a non-empty `error` with the daemon-chosen
exit code 1 instead of any child status. -/
theorem c4_exit_status_vs_launch_failure (req : ExecRequest) (run : RunResult)
    (c0 : String) (rest : List String)
    (hcmd : req.command = c0 :: rest)
    (hallow : isAllowedCommand c0 = true) :
    (∀ out err code, run = .exitError out err code →
      handleExec req run =
        ({ stdout := out, stderr := err, exitCode := code, error := "" }, true)) ∧
    (∀ msg, run = .launchError msg →
      (handleExec req run).1.error ≠ "" ∧ (handleExec req run).1.exitCode = 1 ∧
        (handleExec req run).2 = true) := by
  obtain ⟨ty, cmd, wd⟩ := req
  simp only at hcmd
  subst hcmd
  constructor
  · intro out err code hrun
    subst hrun
    simp [handleExec, hallow]
  · intro msg hrun
    subst hrun
    simp [handleExec, hallow, writeErrorResponse, commandFailedMsg_ne_empty]

/-- Concrete instance of the C4 theorem: a child exit status 4 is passed
through verbatim for the allowed command `gh`. -/
theorem c4_exit_status_vs_launch_failure_witness :
    handleExec ⟨"exec", ["gh", "pr"], ""⟩ (.exitError "o" "e" 4) =
      ({ stdout := "o", stderr := "e", exitCode := 4, error := "" }, true) :=
  (c4_exit_status_vs_launch_failure ⟨"exec", ["gh", "pr"], ""⟩ (.exitError "o" "e" 4)
    "gh" ["pr"] rfl (by decide)).1 "o" "e" 4 rfl

/-- C5: every `ExecResponse` the daemon produces satisfies: a non-empty
error comes with the daemon-chosen exit code 1 (never a child's status),
and a response whose launch branch ran the process to completion never
carries an error. -/
theorem c5_error_implies_daemon_code (inp : HttpIn) (run : RunResult)
    (resp : ExecResponse) (b : Bool)
    (h : serveHTTP inp run = .exec resp b) :
    (resp.error ≠ "" → resp.exitCode = 1) ∧
    (∀ out err, run = .success out err → b = true → resp.error = "") ∧
    (∀ out err code, run = .exitError out err code → b = true → resp.error = "") := by
  cases inp with
  | badBody =>
    injection h with h1 h2
    subst h1; subst h2
    refine ⟨fun _ => rfl, ?_, ?_⟩
    · intro _ _ _ hb; exact Bool.noConfusion hb
    · intro _ _ _ _ hb; exact Bool.noConfusion hb
  | badJson =>
    injection h with h1 h2
    subst h1; subst h2
    refine ⟨fun _ => rfl, ?_, ?_⟩
    · intro _ _ _ hb; exact Bool.noConfusion hb
    · intro _ _ _ _ hb; exact Bool.noConfusion hb
  | ok req =>
    simp only [serveHTTP] at h
    by_cases hty : req.type = "exec"
    · rw [if_pos hty] at h
      injection h with h1 h2
      subst h1; subst h2
      exact handleExec_inv req run
    · rw [if_neg hty] at h
      by_cases hst : req.type = "status"
      · rw [if_pos hst] at h; exact HttpOut.noConfusion h
      · rw [if_neg hst] at h
        by_cases hsp : req.type = "stop"
        · rw [if_pos hsp] at h; exact HttpOut.noConfusion h
        · rw [if_neg hsp] at h
          injection h with h1 h2
          subst h1; subst h2
          refine ⟨fun _ => rfl, ?_, ?_⟩
          · intro _ _ _ hb; exact Bool.noConfusion hb
          · intro _ _ _ _ hb; exact Bool.noConfusion hb

/-- Concrete instance of the C5 theorem, at a blocked command. -/
theorem c5_error_implies_daemon_code_witness :
    ((writeErrorResponse (notAllowedMsg "rm") 1).error ≠ "" →
      (writeErrorResponse (notAllowedMsg "rm") 1).exitCode = 1) ∧
    (∀ out err, (RunResult.success "" "") = .success out err → false = true →
      (writeErrorResponse (notAllowedMsg "rm") 1).error = "") ∧
    (∀ out err code, (RunResult.success "" "") = .exitError out err code → false = true →
      (writeErrorResponse (notAllowedMsg "rm") 1).error = "") :=
  c5_error_implies_daemon_code (.ok ⟨"exec", ["rm"], ""⟩) (.success "" "")
    (writeErrorResponse (notAllowedMsg "rm") 1) false (by decide)

/-- Decoding a list of string values gives back exactly those strings. -/
lemma decStringList_map_str (xs : List String) :
    decStringList (xs.map Json.str) = .ok xs := by
  induction xs with
  | nil => rfl
  | cons a t ih => simp [decStringList, ih, Except.map]

/-- Request round trip: decoding an encoded `ExecRequest` restores every
field. -/
lemma decodeRequest_encodeRequest (r : ExecRequest) :
    decodeRequest (encodeRequest r) = .ok r := by
  obtain ⟨ty, cmd, wd⟩ := r
  have e1 : eqFoldTag "type" "type" = true := by decide
  have e2 : eqFoldTag "command" "type" = false := by decide
  have e3 : eqFoldTag "command" "command" = true := by decide
  have e4 : eqFoldTag "workdir" "type" = false := by decide
  have e5 : eqFoldTag "workdir" "command" = false := by decide
  have e6 : eqFoldTag "workdir" "workdir" = true := by decide
  by_cases hw : wd = ""
  · subst hw
    simp [encodeRequest, decodeRequest, applyReqFields, applyReqField,
      e1, e2, e3, decStringList_map_str, Except.map]
  · simp [encodeRequest, decodeRequest, applyReqFields, applyReqField, hw,
      e1, e2, e3, e4, e5, e6, decStringList_map_str, Except.map]

/-- Response round trip: decoding an encoded `ExecResponse` restores
every field. -/
lemma decodeResponse_encodeResponse (r : ExecResponse) :
    decodeResponse (encodeResponse r) = .ok r := by
  obtain ⟨out, err, code, e⟩ := r
  have f1 : eqFoldTag "stdout" "stdout" = true := by decide
  have f2 : eqFoldTag "stderr" "stdout" = false := by decide
  have f3 : eqFoldTag "stderr" "stderr" = true := by decide
  have f4 : eqFoldTag "exit_code" "stdout" = false := by decide
  have f5 : eqFoldTag "exit_code" "stderr" = false := by decide
  have f6 : eqFoldTag "exit_code" "exit_code" = true := by decide
  have f7 : eqFoldTag "error" "stdout" = false := by decide
  have f8 : eqFoldTag "error" "stderr" = false := by decide
  have f9 : eqFoldTag "error" "exit_code" = false := by decide
  have f10 : eqFoldTag "error" "error" = true := by decide
  by_cases he : e = ""
  · subst he
    simp [encodeResponse, decodeResponse, applyRespFields, applyRespField,
      f1, f2, f3, f4, f5, f6]
  · simp [encodeResponse, decodeResponse, applyRespFields, applyRespField, he,
      f1, f2, f3, f4, f5, f6, f7, f8, f9, f10]

/-- C3: the codec round-trips both message shapes: every `ExecRequest`
and every `ExecResponse` is reproduced exactly by decode after encode. -/
theorem c3_codec_round_trip :
    (∀ r : ExecRequest, decodeRequest (encodeRequest r) = .ok r) ∧
    (∀ r : ExecResponse, decodeResponse (encodeResponse r) = .ok r) :=
  ⟨decodeRequest_encodeRequest, decodeResponse_encodeResponse⟩

/-- C8 counterexample: the codec does not fail on an exec request whose
command list is empty — decoding `{"type":"exec","command":[]}` succeeds
with the empty command list, contradicting the claim that such a request
is a decode failure. -/
theorem c8_empty_command_decodes :
    decodeRequest (Json.obj [("type", Json.str "exec"), ("command", Json.arr [])])
      = Except.ok ⟨"exec", [], ""⟩ := rfl

/-- C8 amended: the request decode does not fail on missing or empty
fields — an exec request with an empty command list decodes successfully,
and the daemon, not the codec, answers "no command specified". Decode
failures arise from malformed input, such as a top-level string or
number, or a known field (matched case-insensitively, as in Go, so
"Command" counts) whose value has the wrong type; a top-level `null`
decodes as a successful no-op leaving the zero-valued request. Any kind
tag — including unknown ones — decodes successfully, and the daemon
produces the error naming the unsupported kind. -/
theorem c8_decode_failures_and_unknown_kind :
    (decodeRequest (Json.obj [("type", Json.str "exec"), ("command", Json.arr [])])
      = Except.ok ⟨"exec", [], ""⟩) ∧
    (∀ run : RunResult, serveHTTP (.ok ⟨"exec", [], ""⟩) run =
      .exec (writeErrorResponse "no command specified" 1) false) ∧
    (decodeRequest Json.null = Except.ok ⟨"", [], ""⟩) ∧
    (∀ s, decodeRequest (Json.str s) = Except.error "cannot unmarshal into ExecRequest") ∧
    (∀ n, decodeRequest (Json.num n) = Except.error "cannot unmarshal into ExecRequest") ∧
    (∀ fields r, decodeRequest (Json.obj (("command", Json.num 3) :: fields)) ≠ Except.ok r) ∧
    (∀ fields r, decodeRequest (Json.obj (("Command", Json.num 3) :: fields)) ≠ Except.ok r) ∧
    (∀ r : ExecRequest, decodeRequest (encodeRequest r) = Except.ok r) ∧
    (∀ (req : ExecRequest) (run : RunResult),
      req.type ≠ "exec" → req.type ≠ "status" → req.type ≠ "stop" →
      serveHTTP (.ok req) run =
        .exec (writeErrorResponse ("unknown request type: " ++ req.type) 1) false) := by
  have e2 : eqFoldTag "command" "type" = false := by decide
  have e3 : eqFoldTag "command" "command" = true := by decide
  have u2 : eqFoldTag "Command" "type" = false := by decide
  have u3 : eqFoldTag "Command" "command" = true := by decide
  refine ⟨rfl, fun _ => rfl, rfl, fun _ => rfl, fun _ => rfl, ?_, ?_,
    decodeRequest_encodeRequest, ?_⟩
  · intro fields r h
    simp [decodeRequest, applyReqFields, applyReqField, e2, e3] at h
  · intro fields r h
    simp [decodeRequest, applyReqFields, applyReqField, u2, u3] at h
  · intro req run hty hst hsp
    simp only [serveHTTP]
    rw [if_neg hty, if_neg hst, if_neg hsp]

/-- Concrete instance of the amended C8 theorem: an unknown kind "ping"
reaches the daemon, which names it in the error response. -/
theorem c8_decode_failures_and_unknown_kind_witness :
    serveHTTP (.ok ⟨"ping", ["x"], ""⟩) (.success "" "") =
      .exec (writeErrorResponse ("unknown request type: " ++ "ping") 1) false :=
  c8_decode_failures_and_unknown_kind.2.2.2.2.2.2.2.2 ⟨"ping", ["x"], ""⟩ (.success "" "")
    (by decide) (by decide) (by decide)

/-- A session attempt that fails without any signal. -/
def failObs : AttemptObs := ⟨false, false, false⟩

/-- C2 counterexample: with `max_retries = 2` and every attempt exiting
nonzero with no signal, the loop gives up after 2 session attempts in
total (the `retries` counter counts every failed attempt, including the
first), not after the 3 attempts (2 reconnections) the claim requires. -/
theorem c2_two_attempts_not_three :
    sshWithRetry 2 (List.replicate 3 failObs) =
      some ⟨.maxRetriesReached 2, 2, 2⟩ ∧
    sshWithRetry 2 (List.replicate 3 failObs) ≠
      some ⟨.maxRetriesReached 2, 3, 2⟩ := by
  constructor
  · rfl
  · decide

/-- C2 amended: with `max_retries = 2` and every attempt exiting nonzero
with no cancellation signal, the loop performs exactly 1 reconnection
after the first attempt — 2 attempts in total — and then returns the
terminal "max retries (2) reached" failure. -/
theorem c2_max_retries_bounds_total_attempts (obs : List AttemptObs)
    (hfail : ∀ o ∈ obs, o.exitOk = false ∧ o.sigAtExit = false ∧ o.sigDuringWait = false)
    (hlen : 2 ≤ obs.length) :
    sshWithRetry 2 obs = some ⟨.maxRetriesReached 2, 2, 2⟩ := by
  match obs, hlen with
  | o1 :: o2 :: rest, _ =>
    obtain ⟨h1, h2, h3⟩ := hfail o1 (by simp)
    obtain ⟨g1, g2, _⟩ := hfail o2 (by simp)
    simp only [sshWithRetry, sshWithRetryAux, h1, h2, h3, g1, g2]
    norm_num

/-- Concrete instance of the amended C2 theorem. -/
theorem c2_max_retries_bounds_total_attempts_witness :
    sshWithRetry 2 [failObs, failObs] = some ⟨.maxRetriesReached 2, 2, 2⟩ :=
  c2_max_retries_bounds_total_attempts [failObs, failObs]
    (by intro o ho; fin_cases ho <;> exact ⟨rfl, rfl, rfl⟩) (by decide)

/-- C7: an observed cancellation signal always ends the loop with no
further attempt. A signal pending when the session exits wins over the
nonzero exit status — the loop returns "Disconnected." without counting
or starting a retry — and a signal during the inter-retry wait returns
"Reconnection cancelled." without starting another attempt, whatever
observations would have followed. -/
theorem c7_signal_ends_loop (maxR : Int) (retries attempts : Nat)
    (o : AttemptObs) (rest : List AttemptObs)
    (hexit : o.exitOk = false) :
    (o.sigAtExit = true →
      sshWithRetryAux maxR retries attempts (o :: rest) =
        some ⟨.disconnected, attempts + 1, retries⟩) ∧
    (o.sigAtExit = false → o.sigDuringWait = true →
      ¬(maxR > 0 ∧ ((retries + 1 : Nat) : Int) ≥ maxR) →
      sshWithRetryAux maxR retries attempts (o :: rest) =
        some ⟨.reconnectCancelled, attempts + 1, retries + 1⟩) := by
  constructor
  · intro hsig
    simp [sshWithRetryAux, hexit, hsig]
  · intro hsig hwait hmax
    simp [sshWithRetryAux, hexit, hsig, hwait, hmax]
    omega

/-- Concrete instance of the C7 theorem: both signal sites, with a
non-empty remainder of the trace that is never reached. -/
theorem c7_signal_ends_loop_witness :
    sshWithRetryAux 0 0 0 [⟨false, true, false⟩, failObs] =
      some ⟨.disconnected, 1, 0⟩ ∧
    sshWithRetryAux 0 5 7 [⟨false, false, true⟩, failObs] =
      some ⟨.reconnectCancelled, 8, 6⟩ :=
  ⟨(c7_signal_ends_loop 0 0 0 ⟨false, true, false⟩ [failObs] rfl).1 rfl,
   (c7_signal_ends_loop 0 5 7 ⟨false, false, true⟩ [failObs] rfl).2 rfl rfl (by decide)⟩

/-- C6: when the first bind fails with address-in-use, `Listen` returns
the "already running" error exactly when the liveness probe succeeds;
when the probe fails it removes the stale socket and retries the bind
once, listening on success and reporting the bind error otherwise; a
first-bind failure other than address-in-use is a plain bind error with
no probe and no removal. -/
theorem c6_listen_stale_socket_recovery :
    (∀ (probe : Bool) (bind2 : BindOutcome),
      (listen .addrInUse probe bind2).1 = .alreadyRunning ↔ probe = true) ∧
    (listen .addrInUse false .ok = (.listening, true)) ∧
    (listen .addrInUse false .addrInUse = (.bindError, true)) ∧
    (∀ m, listen .addrInUse false (.otherErr m) = (.bindError, true)) ∧
    (∀ m (probe : Bool) (bind2 : BindOutcome),
      listen (.otherErr m) probe bind2 = (.bindError, false)) ∧
    (∀ (probe : Bool) (bind2 : BindOutcome),
      listen .ok probe bind2 = (.listening, false)) := by
  refine ⟨?_, rfl, rfl, fun _ => rfl, fun _ _ _ => rfl, fun _ _ => rfl⟩
  intro probe bind2
  cases probe with
  | true => simp [listen]
  | false => cases bind2 <;> simp [listen]

/-- Concrete instance of the C6 theorem: a successful probe means
"already running". -/
theorem c6_listen_stale_socket_recovery_witness :
    (listen .addrInUse true .ok).1 = .alreadyRunning :=
  (c6_listen_stale_socket_recovery.1 true .ok).mpr rfl

/-- Trimming does not disturb a word with non-space first and last
characters, even with a newline appended. -/
lemma trimSpace_append_newline (name : String)
    (hne : name.data ≠ [])
    (hhead : ∀ c, name.data.head? = some c → isGoSpace c = false)
    (hlast : ∀ c, name.data.getLast? = some c → isGoSpace c = false) :
    trimSpace (name ++ "\n") = name := by
  have hdata : (name ++ "\n").data = name.data ++ ['\n'] := String.data_append name "\n"
  unfold trimSpace dropTrailingSpace
  rw [hdata]
  obtain ⟨a, t, hat⟩ : ∃ a t, name.data = a :: t := by
    cases h : name.data with
    | nil => exact absurd h hne
    | cons a t => exact ⟨a, t, rfl⟩
  have ha : isGoSpace a = false := hhead a (by rw [hat]; rfl)
  rw [hat]
  have hdrop1 : ((a :: t) ++ ['\n']).dropWhile isGoSpace = (a :: t) ++ ['\n'] := by
    rw [List.cons_append, List.dropWhile_cons, ha]
    simp
  rw [hdrop1]
  have hrev : ((a :: t) ++ ['\n']).reverse = '\n' :: (a :: t).reverse := by
    simp
  rw [hrev]
  have hnl : isGoSpace '\n' = true := by decide
  rw [List.dropWhile_cons, hnl]
  simp only [if_true]
  obtain ⟨b, r, hbr⟩ : ∃ b r, (a :: t).reverse = b :: r := by
    cases h : (a :: t).reverse with
    | nil => simp at h
    | cons b r => exact ⟨b, r, rfl⟩
  have hb : isGoSpace b = false := by
    apply hlast
    rw [hat]
    rw [← List.head?_reverse, hbr]
    rfl
  rw [hbr, List.dropWhile_cons, hb]
  simp only [Bool.false_eq_true, if_false]
  rw [← hbr, List.reverse_reverse, ← hat]

/-- Trimming an all-whitespace string gives the empty string. -/
lemma trimSpace_all_space (data : String)
    (h : ∀ c ∈ data.data, isGoSpace c = true) :
    trimSpace data = "" := by
  unfold trimSpace dropTrailingSpace
  rw [List.dropWhile_eq_nil_iff.mpr (fun x hx => h x hx)]
  rfl

/-- C10: the selection-state store round-trips. `Get` after `Set name`
returns exactly `name` (the trailing newline written by `Set` is trimmed
away) for any non-empty name without leading or trailing whitespace;
`Get` with no file, after `Clear`, or on whitespace-only content is
`ErrNoCodespace`; `Clear` succeeds whether or not a selection exists. -/
theorem c10_state_store_round_trip :
    (∀ (fs : Option String) (name : String),
      name.data ≠ [] →
      (∀ c, name.data.head? = some c → isGoSpace c = false) →
      (∀ c, name.data.getLast? = some c → isGoSpace c = false) →
      stateGet (stateSet name fs) = .ok name) ∧
    (stateGet none = .error .noCodespace) ∧
    (∀ fs, stateGet (stateClear fs).1 = .error .noCodespace ∧ (stateClear fs).2 = true) ∧
    (∀ data : String, (∀ c ∈ data.data, isGoSpace c = true) →
      stateGet (some data) = .error .noCodespace) := by
  refine ⟨?_, rfl, ?_, ?_⟩
  · intro fs name hne hhead hlast
    have htrim := trimSpace_append_newline name hne hhead hlast
    have hnm : name ≠ "" := by
      intro h
      exact hne (by rw [h])
    simp [stateGet, stateSet, htrim, hnm]
  · intro fs
    cases fs <;> exact ⟨rfl, rfl⟩
  · intro data h
    simp [stateGet, trimSpace_all_space data h]

/-- Concrete instance of the C10 theorem: set then get returns the
name, and a whitespace-only file reads as no selection. -/
theorem c10_state_store_round_trip_witness :
    stateGet (stateSet "mybox-1" none) = .ok "mybox-1" ∧
    stateGet (some "  \n") = .error .noCodespace :=
  ⟨c10_state_store_round_trip.1 none "mybox-1" (by decide) (by decide) (by decide),
   c10_state_store_round_trip.2.2.2 "  \n" (by decide)⟩

end GhCsd
